import Mathlib

/-!
Verification development for the measurement and selection core of the
ntpd-rs time synchronization daemon.

The Rust sources are shallowly embedded:
* machine integers become `Nat`/`Int` with explicit `% 2 ^ w` wrapping where
  the source relies on wrapping behaviour (`u64` timestamps, `usize` counters);
* `f64` values in the selector are modelled as exact rationals `ℚ`
  (a refined model `FloatQ := Option ℚ` with `none` playing the role of NaN
  captures the partiality of float comparisons where that matters);
* `f64` values in the jitter computation are modelled by `F64`, real numbers
  extended with NaN and infinities, because the computation takes square roots;
* fallible Rust code returns `Option`/`Except` in the model, with `none`
  standing for a panic of the corresponding Rust expression.

Types whose defining module is not part of the given sources
(`time_types.rs`, `peer.rs`, `packet.rs`, the kalman `PeerSnapshot`) are
modelled from the specification; their doc comments say so explicitly.
-/

namespace NtpdRs

/-! ## Fixed point time arithmetic

Modelled from the spec: `time_types.rs` is not under src/.  A `Duration` is a
signed 64-bit fixed-point value in units of `2 ^ (-32)` seconds, modelled as an
unbounded `ℤ` (no claim exercises `i64` overflow of durations).  A `Timestamp`
is an unsigned 64-bit value of the same scale with wrapping arithmetic,
modelled as `ℕ`; subtraction of timestamps wraps modulo `2 ^ 64` and
reinterprets the result as a signed duration. -/

/-- Reduce an integer modulo `2 ^ 64` into `[0, 2 ^ 64)`. -/
def wrap64 (x : ℤ) : ℤ := x.emod (2 ^ 64)

/-- Reinterpret the low 64 bits of an integer as a two's complement signed value. -/
def toSigned64 (x : ℤ) : ℤ :=
  if wrap64 x < 2 ^ 63 then wrap64 x else wrap64 x - 2 ^ 64

/-- Modelled from the spec: `Timestamp` subtraction `(a - b)` yields a signed
`Duration` using wrapping 64-bit arithmetic. -/
def tsSub (a b : ℕ) : ℤ := toSigned64 ((a : ℤ) - (b : ℤ))

/-- Wrapping decrement of a `usize` value (release-profile Rust semantics):
`0 - 1` wraps around to `2 ^ 64 - 1`. -/
def usizeDec (n : ℕ) : ℕ := (((n : ℤ) - 1).emod (2 ^ 64)).toNat

/-- Modelled from the spec: `LeapIndicator` is one of NoWarning, Leap61,
Leap59, Unknown (`packet.rs` is not under src/). -/
inductive NtpLeapIndicator where
  | NoWarning
  | Leap61
  | Leap59
  | Unknown
deriving DecidableEq, Repr

/-- Modelled from the spec: only NoWarning, Leap61 and Leap59 count as
synchronized. -/
def NtpLeapIndicator.is_synchronized : NtpLeapIndicator → Bool
  | .Unknown => false
  | _ => true

/-! ## Generic stable sort

Rust's `sort_by` is a stable ascending sort driven by a comparator returning
an `Ordering`.  It is modelled as a stable insertion sort: an element is
inserted behind every element that compares strictly greater, which preserves
the original relative order of elements that compare equal. -/

/-- Insert `x` into the sorted list, after every element `y` with
`cmp x y = gt`. -/
def insertOrd (cmp : α → α → Ordering) (x : α) : List α → List α
  | [] => [x]
  | y :: ys => if cmp x y = Ordering.gt then y :: insertOrd cmp x ys else x :: y :: ys

/-- Stable ascending sort by a total comparator (model of Rust `sort_by`). -/
def sortOrd (cmp : α → α → Ordering) : List α → List α
  | [] => []
  | x :: xs => insertOrd cmp x (sortOrd cmp xs)

/-- Semantics of `partial_cmp` on ordered (non-NaN) float values: the total
comparison on `ℚ`. -/
def cmpQ (a b : ℚ) : Ordering :=
  if a < b then Ordering.lt else if a = b then Ordering.eq else Ordering.gt

/-! ## The intersection selector (`algorithm/kalman/select.rs`)

Rational-valued model: every `f64` is an exact rational, so comparisons are
total and `partial_cmp(..).unwrap()` never panics.  The NaN-refined model
`selectFloat` below covers the panicking behaviour. -/

/-- The part of `SystemConfig` used by the selector. -/
structure SystemConfig where
  min_intersection_survivors : ℕ

/-- The part of `AlgorithmConfig` used by the selector. -/
structure AlgorithmConfig where
  max_peer_uncertainty : ℚ
  range_statistical_weight : ℚ
  range_delay_weight : ℚ

/-- Modelled from the spec: the selector's projection of a kalman
`PeerSnapshot` (the kalman module is not under src/): an identifier, the
derived `offset()` and `offset_uncertainty()` values, the delay in seconds and
the leap indicator.  The two derived accessors are modelled as fields because
`select` treats them as opaque per-candidate numbers. -/
structure PeerSnapshot (Index : Type) where
  index : Index
  offset : ℚ
  offset_uncertainty : ℚ
  delay : ℚ
  leap_indicator : NtpLeapIndicator
deriving DecidableEq

/-- `BoundType` from select.rs. -/
inductive BoundType where
  | Start
  | End
deriving DecidableEq, Repr

/-- The candidate radius: `offset_uncertainty * range_statistical_weight +
delay * range_delay_weight`. -/
def radius (algo_config : AlgorithmConfig) (snapshot : PeerSnapshot Index) : ℚ :=
  snapshot.offset_uncertainty * algo_config.range_statistical_weight
    + snapshot.delay * algo_config.range_delay_weight

/-- The `continue` test of the bound emission loop: a candidate is skipped iff
its radius exceeds `max_peer_uncertainty` or its leap indicator is not
synchronized. -/
def skipTest (algo_config : AlgorithmConfig) (snapshot : PeerSnapshot Index) : Bool :=
  decide (radius algo_config snapshot > algo_config.max_peer_uncertainty)
    || !snapshot.leap_indicator.is_synchronized

/-- Bound emission: for every candidate that survives the skip test, push
`(offset - radius, Start)` and `(offset + radius, End)`, in candidate order. -/
def selectBounds (algo_config : AlgorithmConfig) (candidates : List (PeerSnapshot Index)) :
    List (ℚ × BoundType) :=
  candidates.flatMap fun snapshot =>
    if skipTest algo_config snapshot then []
    else
      [(snapshot.offset - radius algo_config snapshot, BoundType.Start),
       (snapshot.offset + radius algo_config snapshot, BoundType.End)]

/-- The bound comparator `|a, b| a.0.partial_cmp(&b.0).unwrap()`; on rational
(non-NaN) values `partial_cmp` is total and the unwrap succeeds. -/
def boundCmp (a b : ℚ × BoundType) : Ordering := cmpQ a.1 b.1

/-- The sorted bound list built by `select`. -/
def sortedBounds (algo_config : AlgorithmConfig) (candidates : List (PeerSnapshot Index)) :
    List (ℚ × BoundType) :=
  sortOrd boundCmp (selectBounds algo_config candidates)

/-- The sweep loop of `select`: `cur` is incremented on a Start bound and
decremented (with `usize` wrapping) on an End bound; whenever `cur > max` the
pair `(max, maxt)` is updated to `(cur, current bound value)`. -/
def sweepLoop : List (ℚ × BoundType) → ℕ → ℚ → ℕ → ℕ × ℚ
  | [], max, maxt, _cur => (max, maxt)
  | (time, boundtype) :: rest, max, maxt, cur =>
    let cur' := match boundtype with
      | BoundType.Start => cur + 1
      | BoundType.End => usizeDec cur
    if max < cur' then sweepLoop rest cur' time cur' else sweepLoop rest max maxt cur'

/-- The `(max, maxt)` pair computed by the sweep over the sorted bounds. -/
def sweepResult (algo_config : AlgorithmConfig) (candidates : List (PeerSnapshot Index)) :
    ℕ × ℚ :=
  sweepLoop (sortedBounds algo_config candidates) 0 0 0

/-- `select` from select.rs: if `max >= min_intersection_survivors` and
`max * 4 > bounds.len()`, keep every candidate whose radius is within
`max_peer_uncertainty`, whose interval `[offset - radius, offset + radius]`
contains `maxt` and whose leap indicator is synchronized; otherwise return the
empty list. -/
def select (config : SystemConfig) (algo_config : AlgorithmConfig)
    (candidates : List (PeerSnapshot Index)) : List (PeerSnapshot Index) :=
  if config.min_intersection_survivors ≤ (sweepResult algo_config candidates).1 ∧
      (sweepResult algo_config candidates).1 * 4 > (sortedBounds algo_config candidates).length then
    candidates.filter fun snapshot =>
      decide (radius algo_config snapshot ≤ algo_config.max_peer_uncertainty)
        && decide (snapshot.offset - radius algo_config snapshot ≤
            (sweepResult algo_config candidates).2)
        && decide (snapshot.offset + radius algo_config snapshot ≥
            (sweepResult algo_config candidates).2)
        && snapshot.leap_indicator.is_synchronized
  else []

/-! ## NaN-refined model of the selector

`FloatQ := Option ℚ` models an `f64` value that is either an exact rational
(`some q`) or NaN (`none`); infinities are not produced by the operations the
selector performs on finite inputs other than through NaN propagation, and are
not modelled.  Comparisons involving NaN are false, `partial_cmp` on NaN is
undefined (`none`), and `sortOrdQ` propagates an undefined comparison as
`none`, modelling the panic of `partial_cmp(..).unwrap()`. -/

/-- An `f64` value: an exact rational or NaN. -/
abbrev FloatQ : Type := Option ℚ

/-- NaN. -/
def FloatQ.nan : FloatQ := none

/-- A numeric (non-NaN) float value. -/
def FloatQ.val (q : ℚ) : FloatQ := some q

/-- Float addition; NaN propagates. -/
def fqAdd : FloatQ → FloatQ → FloatQ
  | some a, some b => some (a + b)
  | _, _ => none

/-- Float subtraction; NaN propagates. -/
def fqSub : FloatQ → FloatQ → FloatQ
  | some a, some b => some (a - b)
  | _, _ => none

/-- Float multiplication; NaN propagates. -/
def fqMul : FloatQ → FloatQ → FloatQ
  | some a, some b => some (a * b)
  | _, _ => none

/-- The float comparison `a > b`: false whenever either side is NaN. -/
def fqGt : FloatQ → FloatQ → Bool
  | some a, some b => decide (b < a)
  | _, _ => false

/-- The float comparison `a <= b`: false whenever either side is NaN. -/
def fqLe : FloatQ → FloatQ → Bool
  | some a, some b => decide (a ≤ b)
  | _, _ => false

/-- `f64::partial_cmp`: undefined (`none`) whenever either side is NaN. -/
def fqCmp : FloatQ → FloatQ → Option Ordering
  | some a, some b => some (cmpQ a b)
  | _, _ => none

/-- Insertion against a fallible comparator; `none` models a comparator panic
(`partial_cmp(..).unwrap()` on a NaN operand). -/
def insertOrdQ (cmp : α → α → Option Ordering) (x : α) : List α → Option (List α)
  | [] => some [x]
  | y :: ys =>
    match cmp x y with
    | none => none
    | some Ordering.gt => (insertOrdQ cmp x ys).map fun l => y :: l
    | some _ => some (x :: y :: ys)

/-- Stable sort against a fallible comparator; `none` models a panic during
`sort_by`. -/
def sortOrdQ (cmp : α → α → Option Ordering) : List α → Option (List α)
  | [] => some []
  | x :: xs =>
    match sortOrdQ cmp xs with
    | none => none
    | some sorted => insertOrdQ cmp x sorted

/-- `AlgorithmConfig` in the NaN-refined model. -/
structure AlgorithmConfigF where
  max_peer_uncertainty : FloatQ
  range_statistical_weight : FloatQ
  range_delay_weight : FloatQ

/-- Candidate snapshot in the NaN-refined model. -/
structure PeerSnapshotF (Index : Type) where
  index : Index
  offset : FloatQ
  offset_uncertainty : FloatQ
  delay : FloatQ
  leap_indicator : NtpLeapIndicator
deriving DecidableEq

/-- Candidate radius in the NaN-refined model. -/
def radiusF (algo_config : AlgorithmConfigF) (snapshot : PeerSnapshotF Index) : FloatQ :=
  fqAdd (fqMul snapshot.offset_uncertainty algo_config.range_statistical_weight)
    (fqMul snapshot.delay algo_config.range_delay_weight)

/-- The skip test in the NaN-refined model: `radius > max_peer_uncertainty` is
false when the radius is NaN, so a NaN-radius candidate is not skipped. -/
def skipTestF (algo_config : AlgorithmConfigF) (snapshot : PeerSnapshotF Index) : Bool :=
  fqGt (radiusF algo_config snapshot) algo_config.max_peer_uncertainty
    || !snapshot.leap_indicator.is_synchronized

/-- Bound emission in the NaN-refined model. -/
def selectBoundsF (algo_config : AlgorithmConfigF) (candidates : List (PeerSnapshotF Index)) :
    List (FloatQ × BoundType) :=
  candidates.flatMap fun snapshot =>
    if skipTestF algo_config snapshot then []
    else
      [(fqSub snapshot.offset (radiusF algo_config snapshot), BoundType.Start),
       (fqAdd snapshot.offset (radiusF algo_config snapshot), BoundType.End)]

/-- The bound comparator of select.rs on floats:
`a.0.partial_cmp(&b.0).unwrap()`, undefined on a NaN bound. -/
def boundCmpF (a b : FloatQ × BoundType) : Option Ordering := fqCmp a.1 b.1

/-- The sweep loop over float bounds (bound values are only recorded, never
compared, so NaN needs no special handling here). -/
def sweepLoopF : List (FloatQ × BoundType) → ℕ → FloatQ → ℕ → ℕ × FloatQ
  | [], max, maxt, _cur => (max, maxt)
  | (time, boundtype) :: rest, max, maxt, cur =>
    let cur' := match boundtype with
      | BoundType.Start => cur + 1
      | BoundType.End => usizeDec cur
    if max < cur' then sweepLoopF rest cur' time cur' else sweepLoopF rest max maxt cur'

/-- `select` in the NaN-refined model; the result is `none` when the bound
sort panics on an unordered (NaN) comparison. -/
def selectFloat (config : SystemConfig) (algo_config : AlgorithmConfigF)
    (candidates : List (PeerSnapshotF Index)) : Option (List (PeerSnapshotF Index)) :=
  match sortOrdQ boundCmpF (selectBoundsF algo_config candidates) with
  | none => none
  | some bounds =>
    let max := (sweepLoopF bounds 0 (FloatQ.val 0) 0).1
    let maxt := (sweepLoopF bounds 0 (FloatQ.val 0) 0).2
    some <|
      if config.min_intersection_survivors ≤ max ∧ max * 4 > bounds.length then
        candidates.filter fun snapshot =>
          fqLe (radiusF algo_config snapshot) algo_config.max_peer_uncertainty
            && fqLe (fqSub snapshot.offset (radiusF algo_config snapshot)) maxt
            && fqLe maxt (fqAdd snapshot.offset (radiusF algo_config snapshot))
            && snapshot.leap_indicator.is_synchronized
      else []

/-! ## The clock filter (`filter.rs`)

Durations are `ℤ` (signed 64-bit fixed point in units of `2 ^ (-32)` s),
timestamps are `ℕ` (unsigned 64-bit, wrapping); see the time section above. -/

/-- Modelled from the spec: `MAX_DISPERSION` is the fixed sentinel of 16
seconds in `2 ^ (-32)`-second fixed point (`time_types.rs` is not under
src/). -/
def MAX_DISPERSION : ℤ := 16 * 2 ^ 32

/-- Modelled from the spec: `NtpDuration::from_exponent` produces `2 ^ e`
seconds in fixed point (`time_types.rs` is not under src/); exponents below
`-32` underflow the fixed point to zero. -/
def from_exponent (e : ℤ) : ℤ :=
  if 0 ≤ 32 + e then 2 ^ (32 + e).toNat else 0

/-- Modelled from the spec: `multiply_by_phi` multiplies a duration by the
frequency-tolerance constant Φ of about 15 ppm (`peer.rs` is not under src/),
in integer fixed point: `(d * 15) / 1_000_000` with truncating division. -/
def multiply_by_phi (d : ℤ) : ℤ := Int.tdiv (d * 15) 1000000

/-- `FilterTuple` from filter.rs. -/
structure FilterTuple where
  offset : ℤ
  delay : ℤ
  dispersion : ℤ
  time : ℕ
deriving DecidableEq, Repr

/-- The `DUMMY` sentinel tuple. -/
def FilterTuple.DUMMY : FilterTuple :=
  { offset := 0, delay := MAX_DISPERSION, dispersion := MAX_DISPERSION, time := 0 }

/-- `FilterTuple::is_dummy`: equality with the sentinel. -/
def FilterTuple.is_dummy (t : FilterTuple) : Bool := t == FilterTuple.DUMMY

/-- The register of all DUMMYs that `LastMeasurements::new` produces. -/
def dummyRegister : List FilterTuple := List.replicate 8 FilterTuple.DUMMY

/-- One iteration of the `shift_and_insert` loop body applied to the tuple in
a slot: a non-dummy tuple has the dispersion correction added, a dummy is left
unchanged. -/
def ageTuple (dispersion_correction : ℤ) (t : FilterTuple) : FilterTuple :=
  if t.is_dummy then t
  else { t with dispersion := t.dispersion + dispersion_correction }

/-- `LastMeasurements::shift_and_insert`, modelled by threading the `current`
variable through the loop: each slot is aged in place, then swapped with
`current`. -/
def shiftAndInsert (dispersion_correction : ℤ) :
    FilterTuple → List FilterTuple → List FilterTuple
  | _, [] => []
  | current, t :: rest =>
    current :: shiftAndInsert dispersion_correction (ageTuple dispersion_correction t) rest

/-- Total comparison on durations (`ℤ`). -/
def cmpZ (a b : ℤ) : Ordering :=
  if a < b then Ordering.lt else if a = b then Ordering.eq else Ordering.gt

/-- The delay comparator of `TemporaryList::from_clock_filter_contents`:
`t1.delay.partial_cmp(&t2.delay).unwrap_or(Less)`; on integer fixed-point
delays the comparison is total, so the `Less` default is never used. -/
def delayCmp (t1 t2 : FilterTuple) : Ordering :=
  (some (cmpZ t1.delay t2.delay)).getD Ordering.lt

/-- `TemporaryList::from_clock_filter_contents`: the register stably sorted by
ascending delay. -/
def temporaryList (register : List FilterTuple) : List FilterTuple :=
  sortOrd delayCmp register

/-- `TemporaryList::valid_tuples`: the prefix up to and including the last
non-dummy tuple, computed by counting the trailing dummies. -/
def validTuples (temporary : List FilterTuple) : List FilterTuple :=
  let num_invalid_tuples := (temporary.reverse.takeWhile FilterTuple.is_dummy).length
  temporary.take (temporary.length - num_invalid_tuples)

/-- `TemporaryList::dispersion`: `Σ_i dispersion_i / 2 ^ (i + 1)` with
truncating `i64` division. -/
def dispersionOf (temporary : List FilterTuple) : ℤ :=
  (temporary.enum.map fun p => Int.tdiv p.2.dispersion (2 ^ (p.1 + 1))).sum

/-- An `f64` value in the jitter computation: NaN, an infinity, or a finite
real (exact-real model of float arithmetic). -/
inductive F64 where
  | nan
  | inf
  | ninf
  | fin (x : ℝ)

/-- Fixed-point duration to seconds (`to_seconds`), exact-real model.
Modelled from the spec: `time_types.rs` is not under src/. -/
noncomputable def toSeconds (d : ℤ) : ℝ := (d : ℝ) / 2 ^ 32

/-- IEEE-754 division of finite values: `0 / 0` is NaN, a nonzero value
divided by zero is a signed infinity. -/
noncomputable def fdivF (num den : ℝ) : F64 :=
  if den = 0 then
    if num = 0 then F64.nan else if 0 < num then F64.inf else F64.ninf
  else F64.fin (num / den)

/-- `f64::max`: ignores a NaN operand, otherwise the larger value. -/
noncomputable def fmaxF : F64 → F64 → F64
  | F64.nan, b => b
  | a, F64.nan => a
  | F64.inf, _ => F64.inf
  | _, F64.inf => F64.inf
  | F64.ninf, b => b
  | a, F64.ninf => a
  | F64.fin a, F64.fin b => F64.fin (max a b)

/-- `TemporaryList::jitter_help`: the root of the summed squared offset
deviations from the smallest-delay tuple, divided by `(len - 1) as f64`
(with `usize` wrapping subtraction), floored by the system precision. -/
noncomputable def jitter_help (valid_tuples : List FilterTuple) (smallest_delay : FilterTuple)
    (system_precision : ℝ) : F64 :=
  let root_mean_square : ℝ :=
    Real.sqrt ((valid_tuples.map fun t => toSeconds (t.offset - smallest_delay.offset) ^ 2).sum)
  fmaxF (fdivF root_mean_square ((usizeDec valid_tuples.length : ℕ) : ℝ)) (F64.fin system_precision)

/-- `TemporaryList::jitter`. -/
noncomputable def jitterOf (temporary : List FilterTuple) (smallest_delay : FilterTuple)
    (system_precision : ℝ) : F64 :=
  jitter_help (validTuples temporary) smallest_delay system_precision

/-- `PeerStatistics` (`peer.rs` is not under src/; modelled from the spec:
offset, delay, dispersion as durations and jitter as a float in seconds). -/
structure PeerStatistics where
  offset : ℤ
  delay : ℤ
  dispersion : ℤ
  jitter : F64

/-- The register after `step`'s shift-and-insert of the new tuple, aged by
`Φ · (new_tuple.time - peer_time)`. -/
def stepRegister (register : List FilterTuple) (new_tuple : FilterTuple) (peer_time : ℕ) :
    List FilterTuple :=
  shiftAndInsert (multiply_by_phi (tsSub new_tuple.time peer_time)) new_tuple register

/-- The temporary list `step` builds from the shifted register. -/
def stepTemp (register : List FilterTuple) (new_tuple : FilterTuple) (peer_time : ℕ) :
    List FilterTuple :=
  temporaryList (stepRegister register new_tuple peer_time)

/-- The smallest-delay tuple `temporary[0]` that `step` inspects. -/
def stepSmallest (register : List FilterTuple) (new_tuple : FilterTuple) (peer_time : ℕ) :
    FilterTuple :=
  (stepTemp register new_tuple peer_time).headD FilterTuple.DUMMY

/-- `LastMeasurements::step`: shift the register, sort by delay, apply the
prime-directive guard, and otherwise return the filtered statistics paired
with the chosen sample's time. -/
noncomputable def step (register : List FilterTuple) (new_tuple : FilterTuple) (peer_time : ℕ)
    (system_leap_indicator : NtpLeapIndicator) (system_precision : ℝ) :
    Option (PeerStatistics × ℕ) :=
  let temporary := stepTemp register new_tuple peer_time
  let smallest_delay := stepSmallest register new_tuple peer_time
  if tsSub smallest_delay.time peer_time ≤ 0 ∧ system_leap_indicator.is_synchronized then
    none
  else
    some
      ({ offset := smallest_delay.offset
         delay := smallest_delay.delay
         dispersion := dispersionOf temporary
         jitter := jitterOf temporary smallest_delay system_precision },
       smallest_delay.time)

/-! ## Measurement shaping (`FilterTuple::from_packet_default`) -/

/-- Modelled from the spec: the NTP association modes (`packet.rs` is not
under src/); the shaper only distinguishes Broadcast from the rest. -/
inductive NtpAssociationMode where
  | Reserved
  | SymmetricActive
  | SymmetricPassive
  | Client
  | Server
  | Broadcast
  | Control
  | Private
deriving DecidableEq, Repr

/-- The part of `NtpHeader` the shaper reads: the three wire timestamps, the
precision exponent and the association mode (`packet.rs` is not under src/;
modelled from the spec's wire interface). -/
structure NtpHeader where
  origin_timestamp : ℕ
  receive_timestamp : ℕ
  transmit_timestamp : ℕ
  precision : ℤ
  mode : NtpAssociationMode

/-- `FilterTuple::from_packet_default`: offset is the average of the deltas
`(T2 - T1)` and `(T4 - T3)` (truncating `i64` division by 2), delay is
`max(system_precision, (T4 - T1) - (T3 - T2))`, dispersion is
`2 ^ precision + system_precision + Φ · (T4 - T1)`, and time is the local
clock time. -/
def from_packet_default (packet : NtpHeader) (system_precision : ℤ)
    (destination_timestamp : ℕ) (local_clock_time : ℕ) : FilterTuple :=
  let packet_precision := from_exponent packet.precision
  let offset1 := tsSub packet.receive_timestamp packet.origin_timestamp
  let offset2 := tsSub destination_timestamp packet.transmit_timestamp
  let offset := Int.tdiv (offset1 + offset2) 2
  let delta1 := tsSub destination_timestamp packet.origin_timestamp
  let delta2 := tsSub packet.transmit_timestamp packet.receive_timestamp
  let delay := max system_precision (delta1 - delta2)
  { offset := offset
    delay := delay
    dispersion := packet_precision + system_precision + multiply_by_phi delta1
    time := local_clock_time }

/-! ## Sock sample deserialization (`sock_source.rs`) -/

/-- `SOCK_MAGIC`, the little-endian `i32` constant `"SOCK"`. -/
def SOCK_MAGIC : ℤ := 0x534f434b

/-- `SOCK_SAMPLE_SIZE`. -/
def SOCK_SAMPLE_SIZE : ℕ := 40

/-- Read an unsigned little-endian value from a list of bytes. -/
def fromLeBytes (bytes : List ℕ) : ℕ :=
  bytes.foldr (fun b acc => acc * 256 + b % 256) 0

/-- Reinterpret the low 32 bits as a two's complement signed value. -/
def toSigned32 (n : ℕ) : ℤ :=
  if (n % 2 ^ 32 : ℕ) < 2 ^ 31 then (n % 2 ^ 32 : ℕ) else (n % 2 ^ 32 : ℕ) - 2 ^ 32

/-- `i32::from_le_bytes`. -/
def i32FromLeBytes (bytes : List ℕ) : ℤ := toSigned32 (fromLeBytes bytes)

/-- The value of an IEEE-754 binary64 datum: NaN, an infinity, or a finite
rational. -/
inductive FloatValue where
  | nan
  | inf
  | ninf
  | fin (x : ℚ)
deriving DecidableEq, Repr

/-- Decode a 64-bit pattern as an IEEE-754 binary64 value: sign bit 63,
11-bit biased exponent, 52-bit fraction; exponent 2047 encodes infinities and
NaNs, exponent 0 the subnormals. -/
def decodeF64 (bits : ℕ) : FloatValue :=
  let b : ℕ := bits % 2 ^ 64
  let sign : ℕ := b / 2 ^ 63
  let expo : ℕ := b / 2 ^ 52 % 2 ^ 11
  let frac : ℕ := b % 2 ^ 52
  if expo = 2047 then
    if frac = 0 then (if sign = 0 then FloatValue.inf else FloatValue.ninf) else FloatValue.nan
  else
    let magnitude : ℚ :=
      if expo = 0 then (frac : ℚ) * (2 : ℚ) ^ (-1074 : ℤ)
      else ((2 ^ 52 + frac : ℕ) : ℚ) * (2 : ℚ) ^ ((expo : ℤ) - 1075)
    FloatValue.fin (if sign = 0 then magnitude else -magnitude)

/-- `f64::from_le_bytes`. -/
def f64FromLeBytes (bytes : List ℕ) : FloatValue := decodeF64 (fromLeBytes bytes)

/-- A byte slice `buf[lo..hi]` of the receive buffer. -/
def slice (buf : List ℕ) (lo hi : ℕ) : List ℕ := (buf.drop lo).take (hi - lo)

/-- `SockSample` (the `tv_sec`/`tv_usec` fields are commented out in the
source and not modelled). -/
structure SockSample where
  offset : FloatValue
  pulse : ℤ
  leap : ℤ
  magic : ℤ
deriving DecidableEq, Repr

/-- `SampleError` from sock_source.rs.  The `SliceError` case cannot occur for
the fixed 40-byte receive buffer (every `try_into` target slice has the
correct length) and carries no payload in the model. -/
inductive SampleError where
  | IOError
  | SliceError
  | WrongSize (s : ℕ)
  | WrongMagic (m : ℤ)
  | WrongPulse (p : ℤ)
deriving DecidableEq, Repr

/-- `deserialize_sample`: propagate a read error, reject a size other than 40,
decode the fields at their fixed offsets (little endian), then reject a wrong
magic and a nonzero pulse. -/
def deserialize_sample : Except Unit ℕ → List ℕ → Except SampleError SockSample
  | Except.error _, _ => Except.error SampleError.IOError
  | Except.ok size, buf =>
    if size ≠ SOCK_SAMPLE_SIZE then Except.error (SampleError.WrongSize size)
    else
      let sample : SockSample :=
        { offset := f64FromLeBytes (slice buf 16 24)
          pulse := i32FromLeBytes (slice buf 24 28)
          leap := i32FromLeBytes (slice buf 28 32)
          magic := i32FromLeBytes (slice buf 36 40) }
      if sample.magic ≠ SOCK_MAGIC then Except.error (SampleError.WrongMagic sample.magic)
      else if sample.pulse ≠ 0 then Except.error (SampleError.WrongPulse sample.pulse)
      else Except.ok sample

/-! ## `MsgForSystem` (`ntp_source.rs`) -/

/-- `SourceId`: an opaque unique identity, modelled as `ℕ`. -/
abbrev SourceId : Type := ℕ

/-- Modelled from the spec: the `SourceUpdate` payload published by an NTP
source (its type lives in ntp-proto outside src/); the payload content is
irrelevant to the message-shape claim and is kept abstract. -/
structure NtpSourceUpdate (SourceMessage : Type) where
  message : Option SourceMessage

/-- Modelled from the spec: the payload of an update from a one-way (sock)
source; kept abstract like `NtpSourceUpdate`. -/
structure OneWaySourceUpdate (SourceMessage : Type) where
  message : Option SourceMessage

/-- `MsgForSystem` as defined in ntp_source.rs: the five message variants a
source task can deliver to the aggregator. -/
inductive MsgForSystem (SourceMessage : Type) where
  | MustDemobilize (id : SourceId)
  | NetworkIssue (id : SourceId)
  | Unreachable (id : SourceId)
  | SourceUpdate (id : SourceId) (update : NtpSourceUpdate SourceMessage)
  | OneWaySourceUpdate (id : SourceId) (update : OneWaySourceUpdate SourceMessage)

/-- The name of the variant a `MsgForSystem` value was built with. -/
def MsgForSystem.variantName : MsgForSystem SourceMessage → String
  | .MustDemobilize _ => "MustDemobilize"
  | .NetworkIssue _ => "NetworkIssue"
  | .Unreachable _ => "Unreachable"
  | .SourceUpdate _ _ => "SourceUpdate"
  | .OneWaySourceUpdate _ _ => "OneWaySourceUpdate"

/-- The variant names of `MsgForSystem`, in declaration order. -/
def msgForSystemVariants : List String :=
  ["MustDemobilize", "NetworkIssue", "Unreachable", "SourceUpdate", "OneWaySourceUpdate"]

/-! ## Generic facts about the stable sort -/

theorem insertOrd_length (cmp : α → α → Ordering) (x : α) (l : List α) :
    (insertOrd cmp x l).length = l.length + 1 := by
  induction l with
  | nil => rfl
  | cons y ys ih =>
    unfold insertOrd
    by_cases h : cmp x y = Ordering.gt
    · simp [h, ih]
    · simp [h]

theorem sortOrd_length (cmp : α → α → Ordering) (l : List α) :
    (sortOrd cmp l).length = l.length := by
  induction l with
  | nil => rfl
  | cons x xs ih =>
    unfold sortOrd
    rw [insertOrd_length, ih]
    simp

theorem mem_insertOrd (cmp : α → α → Ordering) (x : α) (l : List α) (a : α) :
    a ∈ insertOrd cmp x l ↔ a = x ∨ a ∈ l := by
  induction l with
  | nil => simp [insertOrd]
  | cons y ys ih =>
    unfold insertOrd
    by_cases h : cmp x y = Ordering.gt
    · simp [h, ih]
      tauto
    · simp [h]

theorem mem_sortOrd (cmp : α → α → Ordering) (l : List α) (a : α) :
    a ∈ sortOrd cmp l ↔ a ∈ l := by
  induction l with
  | nil => simp [sortOrd]
  | cons x xs ih =>
    unfold sortOrd
    rw [mem_insertOrd, ih]
    simp

theorem selectBounds_length {Index : Type} (algo_config : AlgorithmConfig)
    (candidates : List (PeerSnapshot Index)) :
    (selectBounds algo_config candidates).length =
      2 * (candidates.filter fun s => !skipTest algo_config s).length := by
  induction candidates with
  | nil => rfl
  | cons c cs ih =>
    unfold selectBounds at ih ⊢
    by_cases h : skipTest algo_config c
    · simp [List.flatMap_cons, List.filter_cons, h, ih]
    · simp [List.flatMap_cons, List.filter_cons, h, ih]
      omega

/-! ## Claim C1 -/

/-- C1: for every candidate list and configuration, `select` returns a
non-empty survivor set only when the sweep maximum `max` satisfies
`max ≥ min_intersection_survivors` and `4 · max > total_bound_count`; when
either condition fails the result is empty, and the bound count is twice the
number of eligible candidates. -/
theorem select_nonempty_requires_majority {Index : Type} (config : SystemConfig)
    (algo_config : AlgorithmConfig) (candidates : List (PeerSnapshot Index))
    (h : ¬ (config.min_intersection_survivors ≤ (sweepResult algo_config candidates).1 ∧
        (sweepResult algo_config candidates).1 * 4 >
          (sortedBounds algo_config candidates).length)) :
    select config algo_config candidates = [] ∧
    (sortedBounds algo_config candidates).length =
      2 * (candidates.filter fun s => !skipTest algo_config s).length := by
  constructor
  · unfold select
    exact if_neg h
  · unfold sortedBounds
    rw [sortOrd_length, selectBounds_length]

/-- Witness for C1 at a concrete input: an empty candidate list with
`min_intersection_survivors = 1` fails the survivor condition and yields the
empty set. -/
theorem select_nonempty_requires_majority_witness :
    select ⟨1⟩ ⟨1, 1, 1⟩ ([] : List (PeerSnapshot ℕ)) = [] ∧
    (sortedBounds ⟨1, 1, 1⟩ ([] : List (PeerSnapshot ℕ))).length =
      2 * (List.filter (fun s => !skipTest ⟨1, 1, 1⟩ s) ([] : List (PeerSnapshot ℕ))).length :=
  select_nonempty_requires_majority ⟨1⟩ ⟨1, 1, 1⟩ [] (by decide)

/-! ## Claim C2 -/

theorem selectPred_eq {Index : Type} (algo_config : AlgorithmConfig) (maxt : ℚ)
    (s : PeerSnapshot Index) :
    (decide (radius algo_config s ≤ algo_config.max_peer_uncertainty)
        && decide (s.offset - radius algo_config s ≤ maxt)
        && decide (s.offset + radius algo_config s ≥ maxt)
        && s.leap_indicator.is_synchronized)
      = ((!skipTest algo_config s)
          && decide (s.offset - radius algo_config s ≤ maxt)
          && decide (maxt ≤ s.offset + radius algo_config s)) := by
  unfold skipTest
  by_cases h1 : radius algo_config s ≤ algo_config.max_peer_uncertainty <;>
    by_cases h2 : s.leap_indicator.is_synchronized = true <;>
      simp [h1, h2, not_lt.mpr, ge_iff_le, not_le] at *

/-- C2: when the intersection is valid, `select` returns exactly the eligible
candidates (the ones the bound-emission loop does not skip) whose interval
`[offset - radius, offset + radius]` contains the sweep's `maxt`; and on any
input, a candidate with `radius > max_peer_uncertainty` or an unsynchronized
leap indicator is never in the output. -/
theorem select_valid_filters_eligible {Index : Type} (config : SystemConfig)
    (algo_config : AlgorithmConfig) (candidates : List (PeerSnapshot Index)) :
    ((config.min_intersection_survivors ≤ (sweepResult algo_config candidates).1 ∧
        (sweepResult algo_config candidates).1 * 4 >
          (sortedBounds algo_config candidates).length) →
      select config algo_config candidates = candidates.filter fun s =>
        (!skipTest algo_config s)
          && decide (s.offset - radius algo_config s ≤ (sweepResult algo_config candidates).2)
          && decide ((sweepResult algo_config candidates).2 ≤
              s.offset + radius algo_config s)) ∧
    (∀ s ∈ select config algo_config candidates,
      radius algo_config s ≤ algo_config.max_peer_uncertainty ∧
        s.leap_indicator.is_synchronized = true) := by
  constructor
  · intro h
    unfold select
    rw [if_pos h]
    exact List.filter_congr fun s _ => selectPred_eq algo_config _ s
  · intro s hs
    unfold select at hs
    by_cases h : config.min_intersection_survivors ≤ (sweepResult algo_config candidates).1 ∧
        (sweepResult algo_config candidates).1 * 4 > (sortedBounds algo_config candidates).length
    · rw [if_pos h] at hs
      have hp := (List.mem_filter.mp hs).2
      simp only [Bool.and_eq_true, decide_eq_true_eq] at hp
      exact ⟨hp.1.1.1, hp.2⟩
    · rw [if_neg h] at hs
      simp at hs

/-- Witness for C2 at a concrete input: one perfectly tight candidate at
offset 0 is valid with `min_intersection_survivors = 1` and survives its own
intersection. -/
theorem select_valid_filters_eligible_witness :
    (1 ≤ (sweepResult ⟨0, 1, 1⟩ [(⟨0, 0, 0, 0, .NoWarning⟩ : PeerSnapshot ℕ)]).1 ∧
      (sweepResult ⟨0, 1, 1⟩ [(⟨0, 0, 0, 0, .NoWarning⟩ : PeerSnapshot ℕ)]).1 * 4 >
        (sortedBounds ⟨0, 1, 1⟩ [(⟨0, 0, 0, 0, .NoWarning⟩ : PeerSnapshot ℕ)]).length) ∧
    select ⟨1⟩ ⟨0, 1, 1⟩ [(⟨0, 0, 0, 0, .NoWarning⟩ : PeerSnapshot ℕ)] =
      List.filter (fun s =>
        (!skipTest ⟨0, 1, 1⟩ s)
          && decide (s.offset - radius ⟨0, 1, 1⟩ s ≤
              (sweepResult ⟨0, 1, 1⟩ [(⟨0, 0, 0, 0, .NoWarning⟩ : PeerSnapshot ℕ)]).2)
          && decide ((sweepResult ⟨0, 1, 1⟩ [(⟨0, 0, 0, 0, .NoWarning⟩ : PeerSnapshot ℕ)]).2 ≤
              s.offset + radius ⟨0, 1, 1⟩ s))
        [(⟨0, 0, 0, 0, .NoWarning⟩ : PeerSnapshot ℕ)] := by
  have hv : 1 ≤ (sweepResult ⟨0, 1, 1⟩ [(⟨0, 0, 0, 0, .NoWarning⟩ : PeerSnapshot ℕ)]).1 ∧
      (sweepResult ⟨0, 1, 1⟩ [(⟨0, 0, 0, 0, .NoWarning⟩ : PeerSnapshot ℕ)]).1 * 4 >
        (sortedBounds ⟨0, 1, 1⟩ [(⟨0, 0, 0, 0, .NoWarning⟩ : PeerSnapshot ℕ)]).length := by
    norm_num [sweepResult, sortedBounds, selectBounds, skipTest, radius, sortOrd, insertOrd,
      boundCmp, cmpQ, sweepLoop, usizeDec, NtpLeapIndicator.is_synchronized]
    decide
  exact ⟨hv, (select_valid_filters_eligible ⟨1⟩ ⟨0, 1, 1⟩ _).1 hv⟩

/-! ## Claim C6 -/

/-- C6 counterexample: on a candidate whose offset is NaN (so both of its
emitted bounds are NaN) the bound sort hits `partial_cmp(..).unwrap()` on an
unordered comparison and panics (`selectFloat` returns `none`); the selector
does not treat NaN as ordered less, and does not complete. -/
theorem select_float_nan_panic_counterexample :
    selectFloat ⟨1⟩ ⟨FloatQ.val 1, FloatQ.val 1, FloatQ.val 1⟩
      [(⟨0, FloatQ.nan, FloatQ.val 0, FloatQ.val 0, .NoWarning⟩ : PeerSnapshotF ℕ)] = none := by
  norm_num [selectFloat, selectBoundsF, skipTestF, radiusF, fqAdd, fqMul, fqSub, fqGt, fqCmp,
    sortOrdQ, insertOrdQ, boundCmpF, FloatQ.val, FloatQ.nan, NtpLeapIndicator.is_synchronized]

theorem insertOrdQ_total (x : FloatQ × BoundType) (l : List (FloatQ × BoundType))
    (hx : x.1 ≠ FloatQ.nan) (hl : ∀ b ∈ l, b.1 ≠ FloatQ.nan) :
    ∃ l', insertOrdQ boundCmpF x l = some l' ∧ ∀ b ∈ l', b.1 ≠ FloatQ.nan := by
  induction l with
  | nil => exact ⟨[x], rfl, by simpa using hx⟩
  | cons y ys ih =>
    obtain ⟨a, ha⟩ := Option.ne_none_iff_exists'.mp hx
    obtain ⟨b, hb⟩ := Option.ne_none_iff_exists'.mp (hl y (by simp))
    have hcmp : boundCmpF x y = some (cmpQ a b) := by
      simp [boundCmpF, fqCmp, ha, hb]
    obtain ⟨l', hl', hmem⟩ := ih fun b hbm => hl b (by simp [hbm])
    unfold insertOrdQ
    rw [hcmp]
    cases hco : cmpQ a b with
    | lt =>
      refine ⟨x :: y :: ys, rfl, ?_⟩
      intro c hcm
      simp only [List.mem_cons] at hcm
      rcases hcm with rfl | rfl | hcm
      · exact hx
      · exact hl _ (by simp)
      · exact hl c (by simp [hcm])
    | eq =>
      refine ⟨x :: y :: ys, rfl, ?_⟩
      intro c hcm
      simp only [List.mem_cons] at hcm
      rcases hcm with rfl | rfl | hcm
      · exact hx
      · exact hl _ (by simp)
      · exact hl c (by simp [hcm])
    | gt =>
      refine ⟨y :: l', by simp [hl'], ?_⟩
      intro c hcm
      simp only [List.mem_cons] at hcm
      rcases hcm with rfl | hcm
      · exact hl _ (by simp)
      · exact hmem c hcm

theorem sortOrdQ_total (l : List (FloatQ × BoundType))
    (hl : ∀ b ∈ l, b.1 ≠ FloatQ.nan) :
    ∃ l', sortOrdQ boundCmpF l = some l' ∧ ∀ b ∈ l', b.1 ≠ FloatQ.nan := by
  induction l with
  | nil => exact ⟨[], rfl, by simp⟩
  | cons x xs ih =>
    obtain ⟨l', hl', hmem⟩ := ih fun b hb => hl b (by simp [hb])
    obtain ⟨l'', hl'', hmem'⟩ := insertOrdQ_total x l' (hl x (by simp)) hmem
    exact ⟨l'', by simp [sortOrdQ, hl', hl''], hmem'⟩

/-- C6 amended: the bound sort of the selector compares with
`partial_cmp(..).unwrap()`, which panics when a NaN bound is compared (it is
the clock filter's delay sort that treats an unordered comparison as Less);
when no emitted bound is NaN, the sort never hits an unordered comparison and
`select` completes without panicking. -/
theorem select_float_no_nan_no_panic {Index : Type} (config : SystemConfig)
    (algo_config : AlgorithmConfigF) (candidates : List (PeerSnapshotF Index))
    (h : ∀ b ∈ selectBoundsF algo_config candidates, b.1 ≠ FloatQ.nan) :
    ∃ result, selectFloat config algo_config candidates = some result := by
  obtain ⟨l', hl', -⟩ := sortOrdQ_total (selectBoundsF algo_config candidates) h
  unfold selectFloat
  rw [hl']
  exact ⟨_, rfl⟩

/-- Witness for C6's amended claim: on one numeric candidate, the emitted
bounds are numeric and the selector completes. -/
theorem select_float_no_nan_no_panic_witness :
    (∀ b ∈ selectBoundsF ⟨FloatQ.val 1, FloatQ.val 1, FloatQ.val 1⟩
        [(⟨0, FloatQ.val 0, FloatQ.val 0, FloatQ.val 0, .NoWarning⟩ : PeerSnapshotF ℕ)],
      b.1 ≠ FloatQ.nan) ∧
    ∃ result, selectFloat ⟨1⟩ ⟨FloatQ.val 1, FloatQ.val 1, FloatQ.val 1⟩
      [(⟨0, FloatQ.val 0, FloatQ.val 0, FloatQ.val 0, .NoWarning⟩ : PeerSnapshotF ℕ)] =
        some result := by
  have hb : ∀ b ∈ selectBoundsF ⟨FloatQ.val 1, FloatQ.val 1, FloatQ.val 1⟩
      [(⟨0, FloatQ.val 0, FloatQ.val 0, FloatQ.val 0, .NoWarning⟩ : PeerSnapshotF ℕ)],
      b.1 ≠ FloatQ.nan := by
    norm_num [selectBoundsF, skipTestF, radiusF, fqAdd, fqMul, fqSub, fqGt, FloatQ.val,
      FloatQ.nan, NtpLeapIndicator.is_synchronized]
    simp
  exact ⟨hb, select_float_no_nan_no_panic ⟨1⟩ _ _ hb⟩

/-! ## Facts about the clock filter register -/

theorem shiftAndInsert_eq (corr : ℤ) (cur : FilterTuple) (register : List FilterTuple)
    (h : register ≠ []) :
    shiftAndInsert corr cur register = cur :: (register.dropLast.map (ageTuple corr)) := by
  induction register generalizing cur with
  | nil => exact absurd rfl h
  | cons t rest ih =>
    cases rest with
    | nil => simp [shiftAndInsert]
    | cons t2 r2 =>
      have hrec := ih (ageTuple corr t) (by simp)
      calc shiftAndInsert corr cur (t :: t2 :: r2)
          = cur :: shiftAndInsert corr (ageTuple corr t) (t2 :: r2) := rfl
        _ = cur :: (ageTuple corr t :: List.map (ageTuple corr) (t2 :: r2).dropLast) := by
            rw [hrec]
        _ = cur :: List.map (ageTuple corr) ((t :: t2 :: r2).dropLast) := by
            simp [List.dropLast_cons₂]

/-- C5: `shift_and_insert` adds the dispersion correction to every stored
tuple that is not the DUMMY sentinel (leaving DUMMY slots unchanged), puts the
incoming tuple at index 0 with its dispersion unmodified, shifts every
previously stored tuple one slot to the right, and discards the previous
tuple at index 7. -/
theorem shift_and_insert_ages_and_shifts (corr : ℤ) (new_tuple : FilterTuple)
    (register : List FilterTuple) (h : register.length = 8) :
    shiftAndInsert corr new_tuple register =
      new_tuple :: (register.take 7).map fun t =>
        if t = FilterTuple.DUMMY then t
        else { t with dispersion := t.dispersion + corr } := by
  have hne : register ≠ [] := by
    intro he
    rw [he] at h
    simp at h
  rw [shiftAndInsert_eq corr new_tuple register hne, List.dropLast_eq_take, h]
  congr 1
  apply List.map_congr_left
  intro t _
  simp [ageTuple, FilterTuple.is_dummy, beq_iff_eq]

/-- Witness for C5 at a concrete input: inserting a fresh tuple into the
all-DUMMY register with correction 5 leaves the DUMMY slots unchanged. -/
theorem shift_and_insert_ages_and_shifts_witness :
    shiftAndInsert 5 (⟨1, 2, 3, 4⟩ : FilterTuple) dummyRegister =
      (⟨1, 2, 3, 4⟩ : FilterTuple) :: (dummyRegister.take 7).map fun t =>
        if t = FilterTuple.DUMMY then t
        else { t with dispersion := t.dispersion + 5 } :=
  shift_and_insert_ages_and_shifts 5 ⟨1, 2, 3, 4⟩ dummyRegister (by decide)

theorem tsSub_self (a : ℕ) : tsSub a a = 0 := by
  simp only [tsSub, toSigned64, wrap64, sub_self]
  decide

theorem delayCmp_ne_gt (t1 t2 : FilterTuple) (h : t1.delay ≤ t2.delay) :
    delayCmp t1 t2 ≠ Ordering.gt := by
  unfold delayCmp cmpZ
  by_cases h1 : t1.delay < t2.delay
  · simp [h1]
  · have he : t1.delay = t2.delay := le_antisymm h (not_lt.mp h1)
    simp [h1, he]

theorem stepRegister_dummy (new_tuple : FilterTuple) (peer_time : ℕ) :
    stepRegister dummyRegister new_tuple peer_time =
      new_tuple :: List.replicate 7 FilterTuple.DUMMY := rfl

theorem stepTemp_dummy (new_tuple : FilterTuple) (peer_time : ℕ)
    (h : new_tuple.delay ≤ MAX_DISPERSION) :
    stepTemp dummyRegister new_tuple peer_time =
      new_tuple :: List.replicate 7 FilterTuple.DUMMY := by
  unfold stepTemp temporaryList
  rw [stepRegister_dummy]
  show insertOrd delayCmp new_tuple (sortOrd delayCmp (List.replicate 7 FilterTuple.DUMMY)) = _
  have hs : sortOrd delayCmp (List.replicate 7 FilterTuple.DUMMY) =
      List.replicate 7 FilterTuple.DUMMY := by decide
  rw [hs]
  show insertOrd delayCmp new_tuple
      (FilterTuple.DUMMY :: List.replicate 6 FilterTuple.DUMMY) = _
  unfold insertOrd
  rw [if_neg (delayCmp_ne_gt new_tuple FilterTuple.DUMMY h)]
  rfl

theorem stepSmallest_dummy (new_tuple : FilterTuple) (peer_time : ℕ)
    (h : new_tuple.delay ≤ MAX_DISPERSION) :
    stepSmallest dummyRegister new_tuple peer_time = new_tuple := by
  unfold stepSmallest
  rw [stepTemp_dummy new_tuple peer_time h]
  rfl

/-! ## Claim C3 -/

/-- C3 counterexample: on the all-DUMMY register with a synchronized leap
indicator and a new tuple whose time equals `peer_time`, `step` can still
return `Some`: with delay above `MAX_DISPERSION` the new tuple sorts behind
the DUMMY slots, the smallest-delay tuple is a DUMMY with time 0, and with
`peer_time = 2 ^ 63 + 5` the wrapping difference `0 - peer_time` is positive,
so the prime-directive guard does not fire — contradicting the claim that
this call returns `None`. -/
theorem step_identity_counterexample :
    (⟨0, MAX_DISPERSION + 1, 0, 2 ^ 63 + 5⟩ : FilterTuple).time = 2 ^ 63 + 5 ∧
    NtpLeapIndicator.NoWarning.is_synchronized = true ∧
    step dummyRegister ⟨0, MAX_DISPERSION + 1, 0, 2 ^ 63 + 5⟩ (2 ^ 63 + 5)
      NtpLeapIndicator.NoWarning 0 ≠ none := by
  refine ⟨rfl, rfl, ?_⟩
  unfold step
  rw [if_neg (by decide)]
  simp

/-- C3 (amended): `step` returns `None` exactly when the system leap
indicator is synchronized and the smallest-delay tuple's time is at most
`peer_time` in the wrapping timestamp comparison (`time - peer_time ≤ 0`);
with an unsynchronized leap indicator the guard is disabled and `step`
returns `Some`; and on an all-DUMMY register a new tuple with
`time = peer_time` whose delay is at most `MAX_DISPERSION` (so that it
becomes the smallest-delay tuple) yields `None` under a synchronized leap
indicator. -/
theorem step_none_iff_prime_directive (register : List FilterTuple)
    (new_tuple : FilterTuple) (peer_time : ℕ) (leap : NtpLeapIndicator) (sp : ℝ) :
    (step register new_tuple peer_time leap sp = none ↔
      (leap.is_synchronized = true ∧
        tsSub (stepSmallest register new_tuple peer_time).time peer_time ≤ 0)) ∧
    (leap.is_synchronized = false →
      (step register new_tuple peer_time leap sp).isSome = true) ∧
    (new_tuple.delay ≤ MAX_DISPERSION → new_tuple.time = peer_time →
      leap.is_synchronized = true →
      step dummyRegister new_tuple peer_time leap sp = none) := by
  refine ⟨?_, ?_, ?_⟩
  · unfold step
    by_cases hc : tsSub (stepSmallest register new_tuple peer_time).time peer_time ≤ 0 ∧
        leap.is_synchronized = true
    · rw [if_pos hc]
      simp [hc.1, hc.2]
    · rw [if_neg hc]
      simp only [reduceCtorEq, false_iff]
      intro hcon
      exact hc ⟨hcon.2, hcon.1⟩
  · intro h
    unfold step
    rw [if_neg (by simp [h])]
    simp
  · intro hd ht hs
    unfold step
    rw [if_pos ?_]
    rw [stepSmallest_dummy new_tuple peer_time hd, ht]
    exact ⟨le_of_eq (tsSub_self peer_time), hs⟩

/-- Witness for C3 at a concrete input: a zero tuple at `time = peer_time = 0`
on the all-DUMMY register under a synchronized leap indicator is rejected. -/
theorem step_none_iff_prime_directive_witness :
    step dummyRegister (⟨0, 0, 0, 0⟩ : FilterTuple) 0 NtpLeapIndicator.NoWarning 0 = none :=
  (step_none_iff_prime_directive dummyRegister ⟨0, 0, 0, 0⟩ 0
    NtpLeapIndicator.NoWarning 0).2.2 (by decide) rfl rfl

/-! ## Claim C7 -/

theorem length_takeWhile_le_self (p : α → Bool) (l : List α) :
    (l.takeWhile p).length ≤ l.length := by
  induction l with
  | nil => simp
  | cons a l ih =>
    by_cases h : p a
    · simpa [List.takeWhile_cons, h] using Nat.succ_le_succ ih
    · simp [List.takeWhile_cons, h]

theorem takeWhile_length_eq_all (p : α → Bool) (l : List α)
    (h : (l.takeWhile p).length = l.length) : ∀ x ∈ l, p x = true := by
  induction l with
  | nil => simp
  | cons a l ih =>
    by_cases hp : p a
    · intro x hx
      rcases List.mem_cons.mp hx with rfl | hx
      · exact hp
      · exact ih (by simpa [List.takeWhile_cons, hp] using h) x hx
    · simp [List.takeWhile_cons, hp] at h

theorem validTuples_length_pos (temporary : List FilterTuple) (x : FilterTuple)
    (hx : x ∈ temporary) (hnd : x.is_dummy = false) :
    1 ≤ (validTuples temporary).length := by
  unfold validTuples
  have hle : (temporary.reverse.takeWhile FilterTuple.is_dummy).length ≤ temporary.length := by
    simpa using length_takeWhile_le_self FilterTuple.is_dummy temporary.reverse
  have hne : (temporary.reverse.takeWhile FilterTuple.is_dummy).length ≠ temporary.length := by
    intro he
    have hall := takeWhile_length_eq_all FilterTuple.is_dummy temporary.reverse
      (by simpa using he)
    have := hall x (List.mem_reverse.mpr hx)
    rw [hnd] at this
    exact Bool.false_ne_true this
  have hlt := lt_of_le_of_ne hle hne
  simp only [List.length_take]
  omega

/-- C7 counterexample: the DUMMY tuple fed to the all-DUMMY register with
`peer_time = 2 ^ 63 + 5` and a synchronized leap indicator passes the prime
directive (the wrapped difference `0 - peer_time` is positive), yet the valid
prefix of the temporary list is empty, so the jitter denominator
`valid.len() - 1` underflows — contradicting the claim that every call
reaching the jitter computation has a non-empty valid prefix. -/
theorem step_jitter_denominator_counterexample :
    step dummyRegister FilterTuple.DUMMY (2 ^ 63 + 5) NtpLeapIndicator.NoWarning 0 ≠ none ∧
    validTuples (stepTemp dummyRegister FilterTuple.DUMMY (2 ^ 63 + 5)) = [] := by
  constructor
  · unfold step
    rw [if_neg (by decide)]
    simp
  · decide

/-- C7 (amended): whenever the new tuple is not the DUMMY sentinel (and the
register is the actual 8-slot register), the valid prefix of the temporary
list built by `step` is non-empty, so the jitter denominator
`valid.len() - 1` does not underflow; the all-DUMMY case can reach the jitter
computation only when the inserted tuple is itself the DUMMY and `peer_time`
wraps. -/
theorem step_jitter_denominator_safe (register : List FilterTuple)
    (new_tuple : FilterTuple) (peer_time : ℕ) (hreg : register.length = 8)
    (hnd : new_tuple ≠ FilterTuple.DUMMY) :
    1 ≤ (validTuples (stepTemp register new_tuple peer_time)).length := by
  have hne : register ≠ [] := by
    intro he
    rw [he] at hreg
    simp at hreg
  have hmem : new_tuple ∈ stepTemp register new_tuple peer_time := by
    unfold stepTemp temporaryList stepRegister
    rw [mem_sortOrd, shiftAndInsert_eq _ _ _ hne]
    simp
  refine validTuples_length_pos _ new_tuple hmem ?_
  simp [FilterTuple.is_dummy, hnd]

/-- Witness for C7 at a concrete input: a fresh zero tuple in the all-DUMMY
register yields a valid prefix of length at least 1. -/
theorem step_jitter_denominator_safe_witness :
    1 ≤ (validTuples (stepTemp dummyRegister (⟨0, 0, 0, 0⟩ : FilterTuple) 0)).length :=
  step_jitter_denominator_safe dummyRegister ⟨0, 0, 0, 0⟩ 0 (by decide) (by decide)

/-! ## Claim C4 -/

theorem takeWhile_replicate_dummy_append (n : ℕ) (t : FilterTuple)
    (h : t.is_dummy = false) :
    (List.replicate n FilterTuple.DUMMY ++ [t]).takeWhile FilterTuple.is_dummy =
      List.replicate n FilterTuple.DUMMY := by
  induction n with
  | zero => simp [List.takeWhile_cons, h]
  | succ n ih =>
    have hdd : FilterTuple.DUMMY.is_dummy = true := by decide
    simp [List.replicate_succ, List.takeWhile_cons, hdd, ih]

theorem usizeDec_one : usizeDec 1 = 0 := by decide

theorem validTuples_fresh (t : FilterTuple) (h : t ≠ FilterTuple.DUMMY) :
    validTuples (t :: List.replicate 7 FilterTuple.DUMMY) = [t] := by
  have hb : t.is_dummy = false := by simp [FilterTuple.is_dummy, h]
  unfold validTuples
  rw [List.reverse_cons, List.reverse_replicate,
    takeWhile_replicate_dummy_append 7 t hb]
  simp

/-- C4 counterexample: on the all-DUMMY register a fresh tuple with
`time = 1 > peer_time = 0` yields `Some`, but with `system_precision = 1` the
returned jitter is 1, not 0: the raw jitter is the float division `0.0 / 0.0`
(a NaN) and `f64::max` with the precision floor replaces it by the system
precision — contradicting the claim that the jitter is 0 for any system
precision. -/
theorem step_freshness_counterexample :
    (0 : ℤ) < tsSub 1 0 ∧
    ((step dummyRegister ⟨2 ^ 32, 2 ^ 32, 0, 1⟩ 0 NtpLeapIndicator.NoWarning 1).map
        fun p => p.1.jitter) = some (F64.fin 1) ∧
    F64.fin (1 : ℝ) ≠ F64.fin 0 := by
  refine ⟨by decide, ?_, by simp⟩
  have htemp : stepTemp dummyRegister (⟨2 ^ 32, 2 ^ 32, 0, 1⟩ : FilterTuple) 0 =
      (⟨2 ^ 32, 2 ^ 32, 0, 1⟩ : FilterTuple) :: List.replicate 7 FilterTuple.DUMMY := by
    decide
  have hsm : stepSmallest dummyRegister (⟨2 ^ 32, 2 ^ 32, 0, 1⟩ : FilterTuple) 0 =
      ⟨2 ^ 32, 2 ^ 32, 0, 1⟩ := by decide
  have hv : validTuples ((⟨2 ^ 32, 2 ^ 32, 0, 1⟩ : FilterTuple) ::
      List.replicate 7 FilterTuple.DUMMY) = [⟨2 ^ 32, 2 ^ 32, 0, 1⟩] := by decide
  unfold step
  rw [if_neg (by decide)]
  simp only [Option.map_some', Option.some.injEq]
  show (jitterOf (stepTemp dummyRegister ⟨2 ^ 32, 2 ^ 32, 0, 1⟩ 0)
      (stepSmallest dummyRegister ⟨2 ^ 32, 2 ^ 32, 0, 1⟩ 0) 1) = F64.fin 1
  rw [htemp, hsm]
  unfold jitterOf jitter_help
  rw [hv]
  simp [toSeconds, usizeDec_one, fdivF, fmaxF]

/-- C4 (amended): on the all-DUMMY register, for every new tuple that is not
the DUMMY sentinel, has delay at most `MAX_DISPERSION`, and is strictly newer
than `peer_time` in the wrapping comparison, `step` returns
`Some((stats, new_tuple.time))` with `stats.offset = new_tuple.offset`,
`stats.delay = new_tuple.delay` and `stats.jitter = system_precision` (the
raw jitter `0.0 / 0.0` is NaN and the precision floor applies; it equals 0
only when the system precision is 0), for any leap indicator and any system
precision. -/
theorem step_freshness_amended (new_tuple : FilterTuple) (peer_time : ℕ)
    (leap : NtpLeapIndicator) (sp : ℝ) (hd : new_tuple.delay ≤ MAX_DISPERSION)
    (hnd : new_tuple ≠ FilterTuple.DUMMY) (ht : 0 < tsSub new_tuple.time peer_time) :
    ∃ stats, step dummyRegister new_tuple peer_time leap sp = some (stats, new_tuple.time) ∧
      stats.offset = new_tuple.offset ∧ stats.delay = new_tuple.delay ∧
      stats.jitter = F64.fin sp := by
  have hsm := stepSmallest_dummy new_tuple peer_time hd
  have htm := stepTemp_dummy new_tuple peer_time hd
  unfold step
  rw [if_neg (by
    rw [hsm]
    exact fun hcon => absurd hcon.1 (not_le.mpr ht))]
  rw [hsm, htm]
  refine ⟨_, rfl, rfl, rfl, ?_⟩
  unfold jitterOf jitter_help
  rw [validTuples_fresh new_tuple hnd]
  simp [toSeconds, usizeDec_one, fdivF, fmaxF]

/-- Witness for C4's amended claim: a tuple with offset 5 and delay 0 at
`time = 1 > peer_time = 0`, with system precision 2, yields statistics with
offset 5, delay 0 and jitter 2. -/
theorem step_freshness_amended_witness :
    ∃ stats, step dummyRegister (⟨5, 0, 0, 1⟩ : FilterTuple) 0 NtpLeapIndicator.NoWarning 2 =
        some (stats, (⟨5, 0, 0, 1⟩ : FilterTuple).time) ∧
      stats.offset = (⟨5, 0, 0, 1⟩ : FilterTuple).offset ∧
      stats.delay = (⟨5, 0, 0, 1⟩ : FilterTuple).delay ∧
      stats.jitter = F64.fin 2 :=
  step_freshness_amended ⟨5, 0, 0, 1⟩ 0 NtpLeapIndicator.NoWarning 2
    (by decide) (by decide) (by decide)

/-! ## Claim C8 -/

/-- C8: for every non-broadcast packet, the measurement shaper produces
`offset = ((T2 - T1) + (T4 - T3)) / 2`,
`delay = max(system_precision, (T4 - T1) - (T3 - T2))` (non-negative whenever
the system precision is),
`dispersion = 2 ^ precision + system_precision + Φ · (T4 - T1)`, and
`time = local_clock_time`. -/
theorem from_packet_default_spec (packet : NtpHeader) (system_precision : ℤ)
    (destination_timestamp local_clock_time : ℕ)
    (_hmode : packet.mode ≠ NtpAssociationMode.Broadcast) :
    (from_packet_default packet system_precision destination_timestamp
        local_clock_time).offset =
      Int.tdiv (tsSub packet.receive_timestamp packet.origin_timestamp +
        tsSub destination_timestamp packet.transmit_timestamp) 2 ∧
    (from_packet_default packet system_precision destination_timestamp
        local_clock_time).delay =
      max system_precision (tsSub destination_timestamp packet.origin_timestamp -
        tsSub packet.transmit_timestamp packet.receive_timestamp) ∧
    (0 ≤ system_precision →
      0 ≤ (from_packet_default packet system_precision destination_timestamp
        local_clock_time).delay) ∧
    (from_packet_default packet system_precision destination_timestamp
        local_clock_time).dispersion =
      from_exponent packet.precision + system_precision +
        multiply_by_phi (tsSub destination_timestamp packet.origin_timestamp) ∧
    (from_packet_default packet system_precision destination_timestamp
        local_clock_time).time = local_clock_time := by
  refine ⟨rfl, rfl, ?_, rfl, rfl⟩
  intro hsp
  exact le_trans hsp (le_max_left _ _)

/-- Witness for C8 at a concrete input: a client-mode packet with
`T1 = 10`, `T2 = 20`, `T3 = 30`, `T4 = 40`, precision exponent `-32` and
system precision 1. -/
theorem from_packet_default_spec_witness :
    (from_packet_default ⟨10, 20, 30, -32, .Client⟩ 1 40 50).offset =
      Int.tdiv (tsSub 20 10 + tsSub 40 30) 2 ∧
    (from_packet_default ⟨10, 20, 30, -32, .Client⟩ 1 40 50).delay =
      max 1 (tsSub 40 10 - tsSub 30 20) ∧
    (0 ≤ (1 : ℤ) →
      0 ≤ (from_packet_default ⟨10, 20, 30, -32, .Client⟩ 1 40 50).delay) ∧
    (from_packet_default ⟨10, 20, 30, -32, .Client⟩ 1 40 50).dispersion =
      from_exponent (-32) + 1 + multiply_by_phi (tsSub 40 10) ∧
    (from_packet_default ⟨10, 20, 30, -32, .Client⟩ 1 40 50).time = 50 :=
  from_packet_default_spec ⟨10, 20, 30, -32, .Client⟩ 1 40 50 (by decide)

/-! ## Claim C9 -/

/-- C9: for a successfully read datagram, `deserialize_sample` returns an
error if and only if the size is not 40, the little-endian `i32` magic at
bytes 36..40 is not `SOCK_MAGIC`, or the little-endian `i32` pulse at bytes
24..28 is nonzero; on success the sample's offset is the IEEE-754 binary64
value of bytes 16..24. -/
theorem deserialize_sample_spec (size : ℕ) (buf : List ℕ) (_hlen : buf.length = 40) :
    ((∃ e, deserialize_sample (Except.ok size) buf = Except.error e) ↔
      (size ≠ 40 ∨ i32FromLeBytes (slice buf 36 40) ≠ SOCK_MAGIC ∨
        i32FromLeBytes (slice buf 24 28) ≠ 0)) ∧
    (∀ s, deserialize_sample (Except.ok size) buf = Except.ok s →
      s.offset = f64FromLeBytes (slice buf 16 24)) := by
  simp only [deserialize_sample]
  by_cases hsize : size ≠ SOCK_SAMPLE_SIZE
  · rw [if_pos hsize]
    constructor
    · simp [SOCK_SAMPLE_SIZE] at hsize ⊢
      exact Or.inl hsize
    · intro s hs
      simp at hs
  · rw [if_neg hsize]
    simp only [SOCK_SAMPLE_SIZE] at hsize
    push_neg at hsize
    by_cases hmagic : i32FromLeBytes (slice buf 36 40) ≠ SOCK_MAGIC
    · rw [if_pos hmagic]
      constructor
      · simp [hsize, hmagic]
      · intro s hs
        simp at hs
    · rw [if_neg hmagic]
      push_neg at hmagic
      by_cases hpulse : i32FromLeBytes (slice buf 24 28) ≠ 0
      · rw [if_pos hpulse]
        constructor
        · simp [hsize, hmagic, hpulse]
        · intro s hs
          simp at hs
      · rw [if_neg hpulse]
        push_neg at hpulse
        constructor
        · simp [hsize, hmagic, hpulse]
        · intro s hs
          simp only [Except.ok.injEq] at hs
          rw [← hs]

/-- Witness for C9 at a concrete input: a well-formed 40-byte sample whose
offset field encodes 1.0 and whose magic is `"SOCK"`. -/
theorem deserialize_sample_spec_witness :
    ((∃ e, deserialize_sample (Except.ok 40)
        [0, 0, 0, 0, 0, 0, 0, 0, 0, 0, 0, 0, 0, 0, 0, 0,
         0, 0, 0, 0, 0, 0, 240, 63, 0, 0, 0, 0, 0, 0, 0, 0,
         0, 0, 0, 0, 75, 67, 79, 83] = Except.error e) ↔
      ((40 : ℕ) ≠ 40 ∨ i32FromLeBytes (slice
        [0, 0, 0, 0, 0, 0, 0, 0, 0, 0, 0, 0, 0, 0, 0, 0,
         0, 0, 0, 0, 0, 0, 240, 63, 0, 0, 0, 0, 0, 0, 0, 0,
         0, 0, 0, 0, 75, 67, 79, 83] 36 40) ≠ SOCK_MAGIC ∨
        i32FromLeBytes (slice
        [0, 0, 0, 0, 0, 0, 0, 0, 0, 0, 0, 0, 0, 0, 0, 0,
         0, 0, 0, 0, 0, 0, 240, 63, 0, 0, 0, 0, 0, 0, 0, 0,
         0, 0, 0, 0, 75, 67, 79, 83] 24 28) ≠ 0)) ∧
    (∀ s, deserialize_sample (Except.ok 40)
        [0, 0, 0, 0, 0, 0, 0, 0, 0, 0, 0, 0, 0, 0, 0, 0,
         0, 0, 0, 0, 0, 0, 240, 63, 0, 0, 0, 0, 0, 0, 0, 0,
         0, 0, 0, 0, 75, 67, 79, 83] = Except.ok s →
      s.offset = f64FromLeBytes (slice
        [0, 0, 0, 0, 0, 0, 0, 0, 0, 0, 0, 0, 0, 0, 0, 0,
         0, 0, 0, 0, 0, 0, 240, 63, 0, 0, 0, 0, 0, 0, 0, 0,
         0, 0, 0, 0, 75, 67, 79, 83] 16 24)) :=
  deserialize_sample_spec 40
    [0, 0, 0, 0, 0, 0, 0, 0, 0, 0, 0, 0, 0, 0, 0, 0,
     0, 0, 0, 0, 0, 0, 240, 63, 0, 0, 0, 0, 0, 0, 0, 0,
     0, 0, 0, 0, 75, 67, 79, 83] (by decide)

/-! ## Claim C10 -/

/-- C10 counterexample: `MsgForSystem` as defined in ntp_source.rs has no
`SockSourceUpdate` variant — no value of the type is built from a variant of
that name, contradicting the claim that the type provides it. -/
theorem msg_for_system_no_sock_variant :
    ¬ ∃ m : MsgForSystem Unit, m.variantName = "SockSourceUpdate" := by
  rintro ⟨m, h⟩
  cases m <;> simp [MsgForSystem.variantName] at h

/-- C10 (amended): `MsgForSystem` has exactly the five variants
MustDemobilize(id), NetworkIssue(id), Unreachable(id), SourceUpdate(id,
update) and OneWaySourceUpdate(id, update): every value is built from one of
these five names, each name is realized, there are five of them, and
`SockSourceUpdate` is not among them (the sock source file names a
`MsgForSystem::SockSourceUpdate` variant that this enum does not define). -/
theorem msg_for_system_five_variants :
    (∀ m : MsgForSystem Unit, m.variantName ∈ msgForSystemVariants) ∧
    (∀ n ∈ msgForSystemVariants, ∃ m : MsgForSystem Unit, m.variantName = n) ∧
    msgForSystemVariants.length = 5 ∧
    "SockSourceUpdate" ∉ msgForSystemVariants := by
  refine ⟨?_, ?_, rfl, by decide⟩
  · intro m
    cases m <;> simp [MsgForSystem.variantName, msgForSystemVariants]
  · intro n hn
    simp only [msgForSystemVariants, List.mem_cons, List.not_mem_nil, or_false] at hn
    rcases hn with rfl | rfl | rfl | rfl | rfl
    · exact ⟨MsgForSystem.MustDemobilize 0, rfl⟩
    · exact ⟨MsgForSystem.NetworkIssue 0, rfl⟩
    · exact ⟨MsgForSystem.Unreachable 0, rfl⟩
    · exact ⟨MsgForSystem.SourceUpdate 0 ⟨none⟩, rfl⟩
    · exact ⟨MsgForSystem.OneWaySourceUpdate 0 ⟨none⟩, rfl⟩

/-- Witness for C10's amended claim: the `NetworkIssue` name is realized. -/
theorem msg_for_system_five_variants_witness :
    ∃ m : MsgForSystem Unit, m.variantName = "NetworkIssue" :=
  msg_for_system_five_variants.2.1 "NetworkIssue" (by decide)

end NtpdRs
